import Mathlib

set_option autoImplicit false

/-!
Verification development for the score.auth package: the RuleSet
authorization dispatcher (src/score/auth/_ruleset.py and the historical
copy in src/score/auth/__init__.py), the authenticator chain
(src/score/auth/authenticator.py, src/score/auth/pyramid.py) and the
context-lifecycle hooks (src/score/auth/_init.py, src/score/auth/__init__.py).

Modeling conventions: Python dictionaries are association lists in
insertion order; both the OrderedDict used by _ruleset.py and the plain
dict used by __init__.py preserve insertion order with in-place value
replacement on an existing key (for plain dict this is the CPython 3.6
and later guarantee; assignment and iteration are the only operations the
code uses, on which the two classes agree). Rule predicates are opaque
identifiers evaluated through an environment, so that theorems can state
which predicate a permits call invoked. Exceptions are Except values;
warnings and the debug log are part of an explicit observation record.
-/

namespace ScoreAuth

/-- Identifier of a Python class. The class hierarchy itself is external
to the package, so the subclass relation is a parameter of the model. -/
abbrev Ty := Nat

/-- A runtime value: an opaque identity together with its exact runtime
class, the result of type(v) in Python. -/
structure Val where
  id : Nat
  cls : Ty
  deriving DecidableEq, Repr

/-- Opaque identifier of a rule predicate function. -/
abbrev PredId := Nat

/-- An argument-type signature: the tuple of classes a rule was
registered with (the args tuple in RuleSet.rule). -/
abbrev Sig := List Ty

/-- Contexts are opaque to the RuleSet; predicates may inspect them only
through the evaluation environment. -/
abbrev Ctx := Nat

/-- Model of isinstance(v, t): the exact class of v is t or a subclass
of t, where sub is the external subclass/issubclass oracle. -/
def isinst (sub : Ty → Ty → Bool) (v : Val) (t : Ty) : Bool :=
  sub v.cls t

/-- Assignment d[k] = v on an insertion-ordered Python mapping: an
existing key keeps its position and receives the new value, a fresh key
is appended at the end. Every mapping the code builds starts empty, so
keys are unique and replacing the first occurrence is replacing the only
one. -/
def odSet {α β : Type} [DecidableEq α] : List (α × β) → α → β → List (α × β)
  | [], k, v => [(k, v)]
  | p :: t, k, v => if p.1 = k then (k, v) :: t else p :: odSet t k v

/-- Lookup d.get(k) on an insertion-ordered Python mapping. -/
def odGet {α β : Type} [DecidableEq α] (l : List (α × β)) (k : α) : Option β :=
  (l.find? (fun p => p.1 == k)).map Prod.snd

/-- Deletion del d[k] on an insertion-ordered Python mapping, for keys
actually present (the one caller checks presence first and raises
KeyError otherwise). -/
def odErase {α β : Type} [DecidableEq α] : List (α × β) → α → List (α × β)
  | [], _ => []
  | p :: t, k => if p.1 = k then t else p :: odErase t k

/-- Model of the RuleSet class of src/score/auth/_ruleset.py: the rules
field maps an operation name to the ordered mapping from registered
signature to predicate. -/
structure RuleSet where
  rules : List (String × List (Sig × PredId))
  deriving DecidableEq, Repr

/-- RuleSet.__init__: self.rules = empty dict. -/
def RuleSet.init : RuleSet := ⟨[]⟩

/-- Model of RuleSet.rule, the capturer branch of the decorator: create
the inner OrderedDict for a fresh operation, then assign
self.rules[operation][args] = func. The bare-callable branch of the
decorator is the special case of an empty signature with the name of the
function as operation, through the identical insertion. -/
def RuleSet.rule (rs : RuleSet) (operation : String) (args : Sig)
    (func : PredId) : RuleSet :=
  ⟨odSet rs.rules operation
    (odSet ((odGet rs.rules operation).getD []) args func)⟩

/-- One iteration test of the permits scan (lines 87-91 of _ruleset.py):
a registered signature matches the call when the arity is equal and
every argument is an instance of the class at its position. -/
def sigMatches (sub : Ty → Ty → Bool) (ruleArgs : Sig) (args : List Val) :
    Bool :=
  args.length == ruleArgs.length &&
    (List.zip args ruleArgs).all (fun p => isinst sub p.1 p.2)

/-- The scan loop of RuleSet.permits: the first registered signature, in
registration order, that matches the arguments, with its predicate. -/
def findMatch (sub : Ty → Ty → Bool) (rules : List (Sig × PredId))
    (args : List Val) : Option (Sig × PredId) :=
  rules.find? (fun r => sigMatches sub r.1 args)

/-- Payload of the NotAuthorized exception: the operation name and the
runtime classes of the arguments; the constructor formats exactly these
two pieces into its message. -/
structure NotAuthorized where
  operation : String
  argTypes : List Ty
  deriving DecidableEq, Repr

/-- Termination of one permits call: a returned boolean, or a raised
NotAuthorized. -/
inductive Outcome where
  | ret (result : Bool)
  | raised (e : NotAuthorized)
  deriving DecidableEq, Repr

/-- Everything observable about one RuleSet.permits call: how it
terminated, which rule predicate (if any) it invoked, and the coverage
warning (operation name plus argument classes) it emitted, if any. The
debug log line is pure logging and not part of the observation. -/
structure PermitsObs where
  outcome : Outcome
  invoked : Option PredId
  warned : Option (String × List Ty)
  deriving DecidableEq, Repr

/-- Model of RuleSet.permits (lines 81-104 of _ruleset.py): scan the
signatures registered for the operation in registration order; on the
first structural match invoke its predicate, raising NotAuthorized when
the predicate denies and raise_ is set; when no signature matches, warn
about the missing rule and deny, raising when raise_ is set. -/
def RuleSet.permits (sub : Ty → Ty → Bool)
    (evalPred : PredId → Ctx → List Val → Bool) (rs : RuleSet) (ctx : Ctx)
    (operation : String) (args : List Val) (raiseFlag : Bool) : PermitsObs :=
  match findMatch sub ((odGet rs.rules operation).getD []) args with
  | some r =>
    let result := evalPred r.2 ctx args
    if !result && raiseFlag then
      { outcome := .raised ⟨operation, args.map Val.cls⟩
        invoked := some r.2
        warned := none }
    else
      { outcome := .ret result
        invoked := some r.2
        warned := none }
  | none =>
    { outcome :=
        if raiseFlag then .raised ⟨operation, args.map Val.cls⟩
        else .ret false
      invoked := none
      warned := some (operation, args.map Val.cls) }

/-- Number of occurrences of a key in a key list; used to state that a
mapping holds at most one entry for a key. -/
def keyCount {α : Type} [DecidableEq α] (k : α) : List α → Nat
  | [] => 0
  | a :: t => (if a = k then 1 else 0) + keyCount k t

/-- Model of the RuleSet class of the historical variant in
src/score/auth/__init__.py (lines 139-204). Its code differs from
_ruleset.py only in using a plain dict where _ruleset.py uses an
OrderedDict for the inner signature table; both are modeled as
insertion-ordered mappings (the guaranteed behaviour of every CPython
from 3.6 on). -/
structure RuleSetL where
  rules : List (String × List (Sig × PredId))
  deriving DecidableEq, Repr

/-- RuleSet.__init__ of the historical variant. -/
def RuleSetL.init : RuleSetL := ⟨[]⟩

/-- Model of RuleSet.rule of the historical variant (capturer branch),
line for line the insertion of __init__.py lines 174-179. -/
def RuleSetL.rule (rs : RuleSetL) (operation : String) (args : Sig)
    (func : PredId) : RuleSetL :=
  ⟨odSet rs.rules operation
    (odSet ((odGet rs.rules operation).getD []) args func)⟩

/-- Model of RuleSet.permits of the historical variant, __init__.py
lines 181-204: the same scan, predicate call, raise and warning logic as
_ruleset.py lines 81-104. -/
def RuleSetL.permits (sub : Ty → Ty → Bool)
    (evalPred : PredId → Ctx → List Val → Bool) (rs : RuleSetL) (ctx : Ctx)
    (operation : String) (args : List Val) (raiseFlag : Bool) : PermitsObs :=
  match findMatch sub ((odGet rs.rules operation).getD []) args with
  | some r =>
    let result := evalPred r.2 ctx args
    if !result && raiseFlag then
      { outcome := .raised ⟨operation, args.map Val.cls⟩
        invoked := some r.2
        warned := none }
    else
      { outcome := .ret result
        invoked := some r.2
        warned := none }
  | none =>
    { outcome :=
        if raiseFlag then .raised ⟨operation, args.map Val.cls⟩
        else .ret false
      invoked := none
      warned := some (operation, args.map Val.cls) }

/-- A sequence of rule registrations applied to a _ruleset.py RuleSet. -/
def applyRules (rs : RuleSet) (regs : List (String × Sig × PredId)) :
    RuleSet :=
  regs.foldl (fun r e => r.rule e.1 e.2.1 e.2.2) rs

/-- The same sequence of rule registrations applied to a historical
RuleSet. -/
def applyRulesL (rs : RuleSetL) (regs : List (String × Sig × PredId)) :
    RuleSetL :=
  regs.foldl (fun r e => r.rule e.1 e.2.1 e.2.2) rs

/-- An actor record as the authenticators see it: a primary key, a
username and the stored password credential (compared directly, matching
the PasswordType assumption documented on LoginAuthenticator). -/
structure Actor where
  id : Nat
  username : String
  password : String
  deriving DecidableEq, Repr

/-- What a SessionAuthenticator keeps under its session key: a pickled
actor blob when no actor class is configured, otherwise the primary key
of the actor. Pickling is modeled as an injective embedding. -/
inductive SessData where
  | pickled (a : Actor)
  | actorId (n : Nat)
  deriving DecidableEq, Repr

/-- The session map of a context: a string-keyed mapping. -/
abbrev Sess := List (String × SessData)

/-- The slice of a per-request context that the authenticators read: the
session map, the POST form of the current request (none models a context
without a request attribute), and the database, as pure lookup functions
for query(cls).get(id) and query(cls).filter(username == u).first(). -/
structure ACtx where
  session : Sess
  request : Option (List (String × String))
  dbById : Ty → Nat → Option Actor
  dbByUsername : Ty → String → Option Actor

/-- One authenticator of a chain: base is the plain Authenticator, which
only delegates; session is a SessionAuthenticator with its session key
and optional actor class; login is a pyramid LoginAuthenticator with its
actor class. A chain is a list of links; the end of the list is the
terminal NullAuthenticator. -/
inductive Link where
  | base (tag : Nat)
  | session (sessionKey : String) (dbcls : Option Ty)
  | login (actorCls : Ty)
  deriving DecidableEq, Repr

/-- An authentication chain, head first; the implicit terminal element
is the NullAuthenticator. -/
abbrev Chain := List Link

/-- SessionAuthenticator._dump: the pickled actor when no actor class is
configured, else the actor id. -/
def dump (dbcls : Option Ty) (actor : Actor) : SessData :=
  match dbcls with
  | none => .pickled actor
  | some _ => .actorId actor.id

/-- SessionAuthenticator._load: unpickle the stored blob when no actor
class is configured, else load the record by primary key. Session
content of the respectively other shape is data this module never
writes; it is modeled as resolving to no actor. -/
def load (dbcls : Option Ty) (ctx : ACtx) (data : SessData) : Option Actor :=
  match dbcls, data with
  | none, .pickled a => some a
  | none, .actorId _ => none
  | some cls, .actorId n => ctx.dbById cls n
  | some _, .pickled _ => none

/-- Errors a store call can raise: del ctx.session[key] raises KeyError
when the key is absent. -/
inductive StoreErr where
  | keyError (key : String)
  deriving DecidableEq, Repr

/-- The own-persistence step of the store of a single link, everything
before the delegation to next.store: Authenticator.store and the
inherited LoginAuthenticator store have none; SessionAuthenticator
(authenticator.py lines 81-85) deletes its session entry when the actor
is None (raising KeyError when the entry is absent) and rewrites it
otherwise. -/
def Link.ownStore : Link → Sess → Option Actor → Except StoreErr Sess
  | .base _, s, _ => .ok s
  | .login _, s, _ => .ok s
  | .session key _, s, none =>
    match odGet s key with
    | some _ => .ok (odErase s key)
    | none => .error (.keyError key)
  | .session key dbcls, s, some actor => .ok (odSet s key (dump dbcls actor))

/-- Running store from the head of a chain (the delegation loop of
Authenticator.store): each link runs its own persistence step, then
delegates to the next link; the NullAuthenticator at the end does
nothing. Returns the links whose store bodies ran, in execution order,
together with the final session map or the error that aborted the
chain. -/
def chainStore : Chain → Sess → Option Actor → List Link × Except StoreErr Sess
  | [], s, _ => ([], .ok s)
  | l :: rest, s, actor =>
    match l.ownStore s actor with
    | .error e => ([l], .error e)
    | .ok s₁ =>
      let r := chainStore rest s₁ actor
      (l :: r.1, r.2)

/-- LoginAuthenticator._login_attempt (pyramid.py lines 69-82) up to,
and not including, the next.store call: the authenticated user, or none
when the context has no request, a credential field is missing from the
POST form, no user record matches the username, or the stored password
differs from the submitted one. -/
def loginLookup (actorCls : Ty) (ctx : ACtx) : Option Actor :=
  match ctx.request with
  | none => none
  | some post =>
    match odGet post "username" with
    | none => none
    | some u =>
      match odGet post "password" with
      | none => none
      | some pw =>
        match ctx.dbByUsername actorCls u with
        | none => none
        | some user => if user.password = pw then some user else none

/-- Running retrieve from the head of a chain: the plain Authenticator
delegates; the SessionAuthenticator answers with the loaded value
whenever its session key is present and delegates otherwise; the
LoginAuthenticator answers with the user of a successful login attempt,
persisting that user through the rest of the chain first, and delegates
otherwise; the NullAuthenticator at the end always answers none.
Returns the result, the links whose retrieve bodies ran in execution
order, and the session map after the call (a successful login attempt
stores a definite actor, which never raises, so the dead error branch of
that store falls back to the unchanged session). -/
def chainRetrieve : Chain → ACtx → Option Actor × List Link × Sess
  | [], ctx => (none, [], ctx.session)
  | l :: rest, ctx =>
    match l with
    | .base t =>
      let r := chainRetrieve rest ctx
      (r.1, .base t :: r.2.1, r.2.2)
    | .session key dbcls =>
      match odGet ctx.session key with
      | some data => (load dbcls ctx data, [.session key dbcls], ctx.session)
      | none =>
        let r := chainRetrieve rest ctx
        (r.1, .session key dbcls :: r.2.1, r.2.2)
    | .login cls =>
      match loginLookup cls ctx with
      | some user =>
        let stored := (chainStore rest ctx.session (some user)).2
        (some user, [.login cls], stored.toOption.getD ctx.session)
      | none =>
        let r := chainRetrieve rest ctx
        (r.1, .login cls :: r.2.1, r.2.2)

/-- The own resolution source of a link, as consulted at the top of its
retrieve: some r means the link answers r itself without calling
next.retrieve, none means it delegates. For the session link the source
is the session-key lookup, a present key answering with the loaded
value; for the login link it is the login attempt; the plain
Authenticator always delegates. -/
def Link.ownResolve : Link → ACtx → Option (Option Actor)
  | .base _, _ => none
  | .session key dbcls, ctx =>
    match odGet ctx.session key with
    | some data => some (load dbcls ctx data)
    | none => none
  | .login cls, ctx =>
    match loginLookup cls ctx with
    | some u => some (some u)
    | none => none

/-- The teardown destructor registered by the current variant,
src/score/auth/_init.py lines 90-92: read the context member (None when
absent) and store it through the chain unconditionally; the old value
passed by the lifecycle manager is ignored. -/
def destructorCurrent (chain : Chain) (newActor old : Option Actor)
    (s : Sess) : List Link × Except StoreErr Sess :=
  let _ := old
  chainStore chain s newActor

/-- The teardown destructor registered by the historical variant,
src/score/auth/__init__.py lines 88-91: read the context member and
store it through the chain only when it differs from the actor
originally resolved at context creation. -/
def destructorLegacy (chain : Chain) (newActor old : Option Actor)
    (s : Sess) : List Link × Except StoreErr Sess :=
  if newActor ≠ old then chainStore chain s newActor else ([], .ok s)

/-- Claim C1: whenever no registered signature matches the argument list
(which includes every operation with no registered rule at all), permits
with raise_ left false returns false, invokes no predicate, and emits a
non-fatal coverage warning naming the operation and the classes of the
arguments, for every context, environment and argument list. -/
theorem permits_no_match_denies_and_warns (sub : Ty → Ty → Bool)
    (evalPred : PredId → Ctx → List Val → Bool) (rs : RuleSet) (ctx : Ctx)
    (operation : String) (args : List Val)
    (h : findMatch sub ((odGet rs.rules operation).getD []) args = none) :
    rs.permits sub evalPred ctx operation args false =
      { outcome := .ret false
        invoked := none
        warned := some (operation, args.map Val.cls) } := by
  simp [RuleSet.permits, h]

/-- Witness for C1: the empty RuleSet, an operation with no rules, one
argument. -/
theorem permits_no_match_denies_and_warns_witness :
    findMatch (fun _ _ => true)
        ((odGet (RuleSet.init).rules "edit").getD []) [⟨7, 1⟩] = none ∧
    RuleSet.init.permits (fun _ _ => true) (fun _ _ _ => true) 0 "edit"
        [⟨7, 1⟩] false =
      { outcome := .ret false
        invoked := none
        warned := some ("edit", [1]) } :=
  ⟨rfl, permits_no_match_denies_and_warns _ _ _ _ _ _ rfl⟩

/-- Helper: a scan skips a prefix on which the test fails everywhere. -/
theorem find?_append_of_false {α : Type} (p : α → Bool) (l₁ l₂ : List α)
    (h : ∀ x ∈ l₁, p x = false) :
    (l₁ ++ l₂).find? p = l₂.find? p := by
  induction l₁ with
  | nil => rfl
  | cons a t ih =>
    have ha : p a = false := h a (by simp)
    rw [List.cons_append, List.find?_cons_of_neg _ (by simp [ha])]
    exact ih (fun x hx => h x (by simp [hx]))

/-- Claim C2: first-match policy. Whenever the rules registered for the
operation consist of a prefix of non-matching signatures followed by S1
(registered earlier) and, somewhere after it, S2 (registered later),
with both S1 and S2 structurally matching the arguments, permits is
determined entirely by the predicate bound to S1: that predicate is the
one recorded as invoked and its result decides the outcome, so the
predicate of S2 is never consulted. -/
theorem permits_first_match (sub : Ty → Ty → Bool)
    (evalPred : PredId → Ctx → List Val → Bool) (rs : RuleSet) (ctx : Ctx)
    (operation : String) (args : List Val) (raiseFlag : Bool)
    (pre mid post : List (Sig × PredId)) (s1 s2 : Sig) (p1 p2 : PredId)
    (hrules : (odGet rs.rules operation).getD [] =
      pre ++ ((s1, p1) :: (mid ++ ((s2, p2) :: post))))
    (hpre : ∀ r ∈ pre, sigMatches sub r.1 args = false)
    (h1 : sigMatches sub s1 args = true)
    (_h2 : sigMatches sub s2 args = true) :
    rs.permits sub evalPred ctx operation args raiseFlag =
      if !(evalPred p1 ctx args) && raiseFlag then
        { outcome := .raised ⟨operation, args.map Val.cls⟩
          invoked := some p1
          warned := none }
      else
        { outcome := .ret (evalPred p1 ctx args)
          invoked := some p1
          warned := none } := by
  have hfind : findMatch sub ((odGet rs.rules operation).getD []) args =
      some (s1, p1) := by
    rw [hrules]
    unfold findMatch
    have hskip := find?_append_of_false (fun r => sigMatches sub r.1 args)
      pre ((s1, p1) :: (mid ++ (s2, p2) :: post)) hpre
    rw [hskip]
    exact List.find?_cons_of_pos _ h1
  unfold RuleSet.permits
  rw [hfind]

/-- Witness for C2: classes 0 (base) and 1 (derived from 0), rules for
operation edit registered first for the base class (predicate 1) and
then for the derived class (predicate 2), called on an instance of the
derived class: predicate 1 is invoked and decides the call. -/
theorem permits_first_match_witness :
    ((RuleSet.init.rule "edit" [0] 1).rule "edit" [1] 2).permits
        (fun c t => c == t || (c == 1 && t == 0)) (fun p _ _ => p == 1)
        0 "edit" [⟨5, 1⟩] false =
      { outcome := .ret true
        invoked := some 1
        warned := none } := by
  have h := permits_first_match (fun c t => c == t || (c == 1 && t == 0))
    (fun p _ _ => p == 1) ((RuleSet.init.rule "edit" [0] 1).rule "edit" [1] 2)
    0 "edit" [⟨5, 1⟩] false [] [] [] [0] [1] 1 2 rfl
    (fun r hr => absurd hr (List.not_mem_nil r)) rfl rfl
  simpa using h

/-- Claim C3: raise-on-deny semantics of permits with raise_ set. When a
signature matches and its predicate allows, permits returns normally
with true; when the matched predicate denies, or no signature matches,
permits raises NotAuthorized carrying the operation name and the
argument classes instead of returning. -/
theorem permits_raise_on_deny (sub : Ty → Ty → Bool)
    (evalPred : PredId → Ctx → List Val → Bool) (rs : RuleSet) (ctx : Ctx)
    (operation : String) (args : List Val) :
    (∀ s p,
      findMatch sub ((odGet rs.rules operation).getD []) args = some (s, p) →
      (evalPred p ctx args = true →
        rs.permits sub evalPred ctx operation args true =
          { outcome := .ret true, invoked := some p, warned := none }) ∧
      (evalPred p ctx args = false →
        rs.permits sub evalPred ctx operation args true =
          { outcome := .raised ⟨operation, args.map Val.cls⟩
            invoked := some p
            warned := none })) ∧
    (findMatch sub ((odGet rs.rules operation).getD []) args = none →
      rs.permits sub evalPred ctx operation args true =
        { outcome := .raised ⟨operation, args.map Val.cls⟩
          invoked := none
          warned := some (operation, args.map Val.cls) }) := by
  refine ⟨fun s p hf => ⟨fun he => ?_, fun he => ?_⟩, fun hf => ?_⟩
  · simp [RuleSet.permits, hf, he]
  · simp [RuleSet.permits, hf, he]
  · simp [RuleSet.permits, hf]

/-- Witness for C3: a zero-argument rule whose predicate allows returns
true; one whose predicate denies raises; an operation with no rules
raises. -/
theorem permits_raise_on_deny_witness :
    (RuleSet.init.rule "edit" [] 1).permits (fun _ _ => true)
        (fun p _ _ => p == 1) 0 "edit" [] true =
      { outcome := .ret true, invoked := some 1, warned := none } ∧
    (RuleSet.init.rule "edit" [] 2).permits (fun _ _ => true)
        (fun p _ _ => p == 1) 0 "edit" [] true =
      { outcome := .raised ⟨"edit", []⟩, invoked := some 2, warned := none } ∧
    RuleSet.init.permits (fun _ _ => true) (fun p _ _ => p == 1) 0 "edit"
        [] true =
      { outcome := .raised ⟨"edit", []⟩
        invoked := none
        warned := some ("edit", []) } :=
  ⟨((permits_raise_on_deny (fun _ _ => true) (fun p _ _ => p == 1)
      (RuleSet.init.rule "edit" [] 1) 0 "edit" []).1 [] 1 rfl).1 rfl,
   ((permits_raise_on_deny (fun _ _ => true) (fun p _ _ => p == 1)
      (RuleSet.init.rule "edit" [] 2) 0 "edit" []).1 [] 2 rfl).2 rfl,
   (permits_raise_on_deny (fun _ _ => true) (fun p _ _ => p == 1)
      RuleSet.init 0 "edit" []).2 rfl⟩

/-- Helper: assigning the same key twice keeps only the second value. -/
theorem odSet_odSet_same {α β : Type} [DecidableEq α] (l : List (α × β))
    (k : α) (v₁ v₂ : β) :
    odSet (odSet l k v₁) k v₂ = odSet l k v₂ := by
  induction l with
  | nil => simp [odSet]
  | cons p t ih =>
    by_cases hp : p.1 = k
    · simp [odSet, hp]
    · simp [odSet, hp, ih]

/-- Helper: a lookup directly after an assignment yields the assigned
value. -/
theorem odGet_odSet_self {α β : Type} [DecidableEq α] (l : List (α × β))
    (k : α) (v : β) :
    odGet (odSet l k v) k = some v := by
  induction l with
  | nil => simp [odSet, odGet, List.find?]
  | cons p t ih =>
    by_cases hp : p.1 = k
    · simp [odSet, hp, odGet, List.find?]
    · simpa [odSet, hp, odGet, List.find?] using ih

/-- Helper: after assigning a key that occurred at most once, the key
occurs exactly once. -/
theorem keyCount_odSet_self {α β : Type} [DecidableEq α] (l : List (α × β))
    (k : α) (v : β) (h : keyCount k (l.map Prod.fst) ≤ 1) :
    keyCount k ((odSet l k v).map Prod.fst) = 1 := by
  induction l with
  | nil => simp [odSet, keyCount]
  | cons p t ih =>
    by_cases hp : p.1 = k
    · have ht : keyCount k (t.map Prod.fst) = 0 := by
        have hh := h
        simp [keyCount, hp] at hh
        omega
      simp [odSet, hp, keyCount, ht]
    · have ht : keyCount k (t.map Prod.fst) ≤ 1 := by
        simpa [keyCount, hp] using h
      simpa [odSet, hp, keyCount] using ih ht

/-- Claim C8: registering a second predicate under the same operation
and the same exact signature silently replaces the earlier predicate:
the resulting RuleSet equals the one obtained by registering only the
later predicate, the signature occupies exactly one entry of the
signature table of the operation (given the table held at most one
before, as every table built by registrations does), and every
subsequent permits call behaves as if only the later predicate had been
registered. -/
theorem rule_same_key_overwrites (rs : RuleSet) (op : String) (s : Sig)
    (p1 p2 : PredId)
    (h : keyCount s (((odGet rs.rules op).getD []).map Prod.fst) ≤ 1) :
    (rs.rule op s p1).rule op s p2 = rs.rule op s p2 ∧
    keyCount s
      (((odGet ((rs.rule op s p1).rule op s p2).rules op).getD []).map
        Prod.fst) = 1 ∧
    ∀ (sub : Ty → Ty → Bool) (evalPred : PredId → Ctx → List Val → Bool)
      (ctx : Ctx) (args : List Val) (raiseFlag : Bool),
      ((rs.rule op s p1).rule op s p2).permits sub evalPred ctx op args
          raiseFlag =
        (rs.rule op s p2).permits sub evalPred ctx op args raiseFlag := by
  have heq : (rs.rule op s p1).rule op s p2 = rs.rule op s p2 := by
    unfold RuleSet.rule
    rw [odGet_odSet_self]
    simp [odSet_odSet_same]
  refine ⟨heq, ?_, fun sub evalPred ctx args raiseFlag => by rw [heq]⟩
  rw [heq]
  unfold RuleSet.rule
  rw [odGet_odSet_self]
  simpa using keyCount_odSet_self _ s p2 h

/-- Witness for C8: registering predicate 1 and then predicate 2 for the
same operation and signature leaves a table with one entry holding
predicate 2. -/
theorem rule_same_key_overwrites_witness :
    keyCount ([0] : Sig)
      (((odGet ((RuleSet.init.rule "edit" [0] 1).rule "edit" [0] 2).rules
        "edit").getD []).map Prod.fst) = 1 ∧
    (RuleSet.init.rule "edit" [0] 1).rule "edit" [0] 2 =
      RuleSet.init.rule "edit" [0] 2 :=
  ⟨(rule_same_key_overwrites RuleSet.init "edit" [0] 1 2 (by decide)).2.1,
   (rule_same_key_overwrites RuleSet.init "edit" [0] 1 2 (by decide)).1⟩

/-- Claim C5: chain-of-responsibility retrieval. Every link consults its
own resolution source first: when that source yields a definite actor
the link returns it immediately and the retrieve of no later link runs;
when the source has no answer the link delegates to the rest of the
chain unchanged; and the terminal NullAuthenticator always returns
none. -/
theorem chainRetrieve_first_wins (l : Link) (rest : Chain) (ctx : ACtx) :
    (∀ a, l.ownResolve ctx = some (some a) →
      (chainRetrieve (l :: rest) ctx).1 = some a ∧
      (chainRetrieve (l :: rest) ctx).2.1 = [l]) ∧
    (l.ownResolve ctx = none →
      chainRetrieve (l :: rest) ctx =
        ((chainRetrieve rest ctx).1, l :: (chainRetrieve rest ctx).2.1,
          (chainRetrieve rest ctx).2.2)) ∧
    chainRetrieve ([] : Chain) ctx = (none, [], ctx.session) := by
  refine ⟨?_, ?_, rfl⟩
  · intro a ha
    cases l with
    | base t => simp [Link.ownResolve] at ha
    | session key dbcls =>
      simp only [Link.ownResolve] at ha
      cases hkey : odGet ctx.session key with
      | none => simp [hkey] at ha
      | some data =>
        simp only [hkey, Option.some.injEq] at ha
        simp [chainRetrieve, hkey, ha]
    | login cls =>
      simp only [Link.ownResolve] at ha
      cases hlog : loginLookup cls ctx with
      | none => simp [hlog] at ha
      | some u =>
        simp only [hlog, Option.some.injEq] at ha
        subst ha
        simp [chainRetrieve, hlog]
  · intro hn
    cases l with
    | base t => simp [chainRetrieve]
    | session key dbcls =>
      simp only [Link.ownResolve] at hn
      cases hkey : odGet ctx.session key with
      | some data => simp [hkey] at hn
      | none => simp [chainRetrieve, hkey]
    | login cls =>
      simp only [Link.ownResolve] at hn
      cases hlog : loginLookup cls ctx with
      | some u => simp [hlog] at hn
      | none => simp [chainRetrieve, hlog]

/-- Witness for C5: a session link whose key holds a pickled actor
answers that actor itself, consulting no later link. -/
theorem chainRetrieve_first_wins_witness :
    (chainRetrieve [Link.session "actor" none, .base 0]
      ⟨[("actor", .pickled ⟨1, "alice", "pw"⟩)], none, fun _ _ => none,
        fun _ _ => none⟩).1 = some ⟨1, "alice", "pw"⟩ ∧
    (chainRetrieve [Link.session "actor" none, .base 0]
      ⟨[("actor", .pickled ⟨1, "alice", "pw"⟩)], none, fun _ _ => none,
        fun _ _ => none⟩).2.1 = [Link.session "actor" none] :=
  (chainRetrieve_first_wins (.session "actor" none) [.base 0]
    ⟨[("actor", .pickled ⟨1, "alice", "pw"⟩)], none, fun _ _ => none,
      fun _ _ => none⟩).1 ⟨1, "alice", "pw"⟩ rfl

/-- Counterexample for C6 as stated: storing no actor over a chain whose
session link finds no entry under its key aborts with KeyError before
the second link, so not every link of the chain executes its own store
logic and the delegation is not unconditional. -/
theorem chainStore_not_all_links :
    (chainStore [.session "actor" none, .base 0] [] none).1 ≠
      [Link.session "actor" none, .base 0] := by decide

/-- Claim C6 (amended): provided every own-persistence step succeeds (in
particular, no session link deletes an absent session entry), store on
the head of a chain executes the own store logic of every link exactly
once, in head-to-tail order: the execution trace is the chain itself;
when a step raises, the links behind it are not reached. -/
theorem chainStore_all_links (links : Chain) (s : Sess)
    (actor : Option Actor) (s₁ : Sess)
    (h : (chainStore links s actor).2 = .ok s₁) :
    (chainStore links s actor).1 = links := by
  induction links generalizing s with
  | nil => rfl
  | cons l rest ih =>
    cases hos : l.ownStore s actor with
    | error e => simp [chainStore, hos] at h
    | ok s₂ =>
      simp only [chainStore, hos] at h
      simp [chainStore, hos, ih _ h]

/-- Witness for C6 (amended): storing a definite actor over a two-link
chain runs both links in order. -/
theorem chainStore_all_links_witness :
    (chainStore [.session "actor" none, .base 0] []
      (some ⟨1, "alice", "pw"⟩)).1 = [Link.session "actor" none, .base 0] :=
  chainStore_all_links _ _ _ [("actor", .pickled ⟨1, "alice", "pw"⟩)] rfl

/-- Claim C9: SessionAuthenticator.store is not total at its public
interface: whenever the session map lacks the configured key, storing no
actor raises KeyError from the deletion of the absent entry, and the
delegation to the next link does not happen for that call. -/
theorem sessionStore_none_absent_key (key : String) (dbcls : Option Ty)
    (rest : Chain) (s : Sess)
    (h : odGet s key = none) :
    chainStore (.session key dbcls :: rest) s none =
      ([.session key dbcls], .error (.keyError key)) := by
  simp [chainStore, Link.ownStore, h]

/-- Witness for C9: the empty session with a session link and a
successor link: the call fails and the successor never runs. -/
theorem sessionStore_none_absent_key_witness :
    chainStore [Link.session "actor" none, .base 0] [] none =
      ([Link.session "actor" none], .error (.keyError "actor")) :=
  sessionStore_none_absent_key "actor" none [.base 0] [] rfl

/-- Claim C7: at the login link a credential mismatch is observationally
identical to absent credentials or an unknown username: the login
attempt yields none in all these cases, so the link raises nothing,
stores nothing, and delegates to the rest of the chain on the unchanged
context. -/
theorem login_mismatch_falls_through (cls : Ty) (rest : Chain) (ctx : ACtx)
    (h :
      (∃ post u pw user, ctx.request = some post ∧
        odGet post "username" = some u ∧ odGet post "password" = some pw ∧
        ctx.dbByUsername cls u = some user ∧ user.password ≠ pw) ∨
      ctx.request = none ∨
      (∃ post, ctx.request = some post ∧ odGet post "username" = none) ∨
      (∃ post u, ctx.request = some post ∧ odGet post "username" = some u ∧
        odGet post "password" = none) ∨
      (∃ post u pw, ctx.request = some post ∧
        odGet post "username" = some u ∧ odGet post "password" = some pw ∧
        ctx.dbByUsername cls u = none)) :
    loginLookup cls ctx = none ∧
    chainRetrieve (.login cls :: rest) ctx =
      ((chainRetrieve rest ctx).1,
        .login cls :: (chainRetrieve rest ctx).2.1,
        (chainRetrieve rest ctx).2.2) := by
  have hl : loginLookup cls ctx = none := by
    rcases h with ⟨post, u, pw, user, hreq, hu, hpw, hdb, hne⟩ | hreq |
      ⟨post, hreq, hu⟩ | ⟨post, u, hreq, hu, hpw⟩ |
      ⟨post, u, pw, hreq, hu, hpw, hdb⟩
    · simp [loginLookup, hreq, hu, hpw, hdb, hne]
    · simp [loginLookup, hreq]
    · simp [loginLookup, hreq, hu]
    · simp [loginLookup, hreq, hu, hpw]
    · simp [loginLookup, hreq, hu, hpw, hdb]
  exact ⟨hl, by simp [chainRetrieve, hl]⟩

/-- Witness for C7: a submitted username with a wrong password for an
existing user falls through to the next link. -/
theorem login_mismatch_falls_through_witness :
    loginLookup 0
      ⟨[], some [("username", "alice"), ("password", "wrong")],
        fun _ _ => none,
        fun _ u => if u = "alice" then some ⟨1, "alice", "right"⟩ else none⟩
      = none :=
  (login_mismatch_falls_through 0 []
    ⟨[], some [("username", "alice"), ("password", "wrong")],
      fun _ _ => none,
      fun _ u => if u = "alice" then some ⟨1, "alice", "right"⟩ else none⟩
    (Or.inl ⟨[("username", "alice"), ("password", "wrong")], "alice",
      "wrong", ⟨1, "alice", "right"⟩, rfl, rfl, rfl, rfl,
      by decide⟩)).1

/-- Counterexample for C4 as stated: the destructor of the current
variant in _init.py calls the chain store even when the actor value is
unchanged: with the member value and the originally resolved actor both
none, the store chain runs (its trace is nonempty; over the empty
session it even raises KeyError), where the claim requires that store
not be called at all. -/
theorem destructor_unchanged_calls_store :
    (destructorCurrent [.session "actor" none] none none []).1 ≠ [] := by
  decide

/-- Claim C4 (amended): the destructor of the historical __init__.py
variant persists only on change: when the member value equals the
originally resolved actor it performs no store call and leaves the
storage untouched, and when the value differs it stores it through the
chain. The destructor registered by the current _init.py variant instead
invokes the chain store unconditionally, whether or not the value
changed. -/
theorem destructor_store_on_change (chain : Chain)
    (newActor old : Option Actor) (s : Sess) :
    destructorCurrent chain newActor old s = chainStore chain s newActor ∧
    (newActor = old → destructorLegacy chain newActor old s = ([], .ok s)) ∧
    (newActor ≠ old →
      destructorLegacy chain newActor old s = chainStore chain s newActor) := by
  refine ⟨rfl, fun he => ?_, fun hne => ?_⟩
  · simp [destructorLegacy, he]
  · simp [destructorLegacy, hne]

/-- Witness for C4 (amended): a changed and an unchanged teardown over a
one-link chain. -/
theorem destructor_store_on_change_witness :
    destructorLegacy [Link.base 0] none none [] = ([], .ok []) ∧
    destructorLegacy [Link.base 0] (some ⟨1, "alice", "pw"⟩) none [] =
      chainStore [Link.base 0] [] (some ⟨1, "alice", "pw"⟩) :=
  ⟨(destructor_store_on_change [.base 0] none none []).2.1 rfl,
   (destructor_store_on_change [.base 0] (some ⟨1, "alice", "pw"⟩) none
      []).2.2 (by decide)⟩

/-- Helper: starting from the same rule state, the rule methods of the
two variants build identical states for every registration sequence. -/
theorem applyRules_eq_applyRulesL (regs : List (String × Sig × PredId))
    (rs : List (String × List (Sig × PredId))) :
    (applyRules ⟨rs⟩ regs).rules = (applyRulesL ⟨rs⟩ regs).rules := by
  induction regs generalizing rs with
  | nil => rfl
  | cons e t ih =>
    simpa [applyRules, applyRulesL, RuleSet.rule, RuleSetL.rule] using
      ih (odSet rs e.1 (odSet ((odGet rs e.1).getD []) e.2.1 e.2.2))

/-- Claim C10: the two RuleSet implementations in the repository, the
historical one of __init__.py and the current one of _ruleset.py, are
behaviorally equivalent: from the empty state, every sequence of rule
registrations followed by any permits call produces the identical
observation in both variants; the same boolean is returned, or the same
NotAuthorized is raised, with the same invoked predicate and the same
warning. -/
theorem ruleset_variants_equivalent (regs : List (String × Sig × PredId))
    (sub : Ty → Ty → Bool) (evalPred : PredId → Ctx → List Val → Bool)
    (ctx : Ctx) (operation : String) (args : List Val) (raiseFlag : Bool) :
    (applyRules RuleSet.init regs).permits sub evalPred ctx operation args
        raiseFlag =
      (applyRulesL RuleSetL.init regs).permits sub evalPred ctx operation
        args raiseFlag := by
  have hrules : (applyRules RuleSet.init regs).rules =
      (applyRulesL RuleSetL.init regs).rules :=
    applyRules_eq_applyRulesL regs []
  unfold RuleSet.permits RuleSetL.permits
  rw [hrules]

end ScoreAuth
